import Mathlib

/-!
Verification of the fleet inventory/telemetry platform against its
specification. Each component of the repository that the checked claims
touch is shallowly embedded: Go structs become structures, pure functions
become Lean functions, the relational tables become lists (or keyed maps)
threaded explicitly, and fallible handlers return status codes or `Except`.
Machine integers are modelled as `Int`/`Nat` (no value in these code paths
approaches an overflow boundary), Go `float64` arithmetic in the backoff
computation is modelled over `ℚ` (exact for the values exercised here), and
wall-clock times are abstract `Int`/`ℚ` instants.
-/

namespace CloudWriter

/-- Retry configuration of the agent (`config.RetryConfig` in
`agent/internal/config`): `max_retries`, `backoff_multiplier` (a Go
`float64`, modelled as a rational) and `max_backoff` (a `time.Duration`,
modelled as a rational count of nanoseconds). -/
structure RetryConfig where
  maxRetries : Nat
  backoffMultiplier : ℚ
  maxBackoff : ℚ
deriving DecidableEq

/-- Go `time.Second` as a count of nanoseconds. -/
def second : ℚ := 1000000000

/-- `CloudWriter.calculateBackoff` from `agent/internal/output/cloud_writer.go`:
`backoff := time.Duration(float64(time.Second) * float64(attempts+1) * w.config.RetryConfig.BackoffMultiplier)`,
then clamped down to `MaxBackoff` when it exceeds it. The `float64`
product is modelled exactly over `ℚ`. -/
def calculateBackoff (rc : RetryConfig) (attempts : Nat) : ℚ :=
  let backoff := second * ((attempts : ℚ) + 1) * rc.backoffMultiplier
  if backoff > rc.maxBackoff then rc.maxBackoff else backoff

/-- The backoff formula as the specification words it:
`clamp(multiplier^attempts × base, max_backoff)` with base one second.
Written from the spec only, to be compared with `calculateBackoff`. -/
def specBackoff (rc : RetryConfig) (attempts : Nat) : ℚ :=
  min (rc.backoffMultiplier ^ attempts * second) rc.maxBackoff

/-- One entry of the in-memory retry queue (`queuedPayload`): the payload,
the attempt count, and the next-attempt instant. -/
structure QueuedPayload (α : Type) where
  payload : α
  attempts : Nat
  nextAttempt : ℚ
deriving DecidableEq

/-- `maxQueue` is set to 100 in `NewCloudWriter`. -/
def maxQueue : Nat := 100

/-- `CloudWriter.queuePayload`: when the queue already holds `maxQueue`
entries the oldest entry (the head of the slice) is removed, then the new
payload is appended with `attempts = 0` and
`nextAttempt = now + calculateBackoff 0`. -/
def queuePayload (rc : RetryConfig) (q : List (QueuedPayload α)) (p : α) (now : ℚ) :
    List (QueuedPayload α) :=
  (if maxQueue ≤ q.length then q.drop 1 else q) ++ [⟨p, 0, now + calculateBackoff rc 0⟩]

/-- Outcome of the HTTP POST as observed by `sendPayload`: either the
request failed at the network layer, or a response with a status code
arrived. -/
inductive SendOutcome
  | networkError
  | status (code : Nat)
deriving DecidableEq

/-- Whether `sendPayload` enqueues the payload for retry, transcribing its
branches: a network error enqueues; the status switch treats `202` as
success, drops on `401`, `400` and `403`, and enqueues on every other
status (the `default` case). -/
def enqueuesForRetry : SendOutcome → Bool
  | .networkError => true
  | .status code =>
    if code = 202 then false
    else if code = 401 then false
    else if code = 400 then false
    else if code = 403 then false
    else true

/-- Effect of one `sendPayload` call on the retry queue. -/
def sendPayload (rc : RetryConfig) (q : List (QueuedPayload α)) (p : α) (now : ℚ)
    (outcome : SendOutcome) : List (QueuedPayload α) :=
  if enqueuesForRetry outcome then queuePayload rc q p now else q

/-- The agent's default retry configuration (`DefaultMaxRetries = 5`,
`DefaultBackoffMultiplier = 2.0`, `DefaultMaxBackoff = 5 min`). -/
def defaultRetryConfig : RetryConfig := ⟨5, 2, 300 * second⟩

theorem queuePayload_length_le (rc : RetryConfig) (q : List (QueuedPayload α))
    (p : α) (now : ℚ) (h : q.length ≤ maxQueue) :
    (queuePayload rc q p now).length ≤ maxQueue := by
  unfold queuePayload maxQueue
  unfold maxQueue at h
  by_cases hfull : 100 ≤ q.length
  · simp only [hfull, if_pos, List.length_append, List.length_drop, List.length_cons,
      List.length_nil]
    omega
  · simp only [hfull, if_neg, not_false_iff, List.length_append, List.length_cons,
      List.length_nil]
    omega

end CloudWriter

/-- C9: every sequence of enqueues keeps the retry queue at no more than
100 entries, and an enqueue into a full queue evicts exactly the oldest
entry (the head), appending the new one at the tail. -/
theorem c9_queue_bounded_evicts_oldest :
    (∀ (rc : CloudWriter.RetryConfig) (ps : List String)
       (q : List (CloudWriter.QueuedPayload String)) (now : ℚ),
       q.length ≤ CloudWriter.maxQueue →
       (ps.foldl (fun acc p => CloudWriter.queuePayload rc acc p now) q).length
         ≤ CloudWriter.maxQueue)
  ∧ (∀ (rc : CloudWriter.RetryConfig) (q : List (CloudWriter.QueuedPayload String))
       (p : String) (now : ℚ),
       q.length = CloudWriter.maxQueue →
       CloudWriter.queuePayload rc q p now =
         q.drop 1 ++ [⟨p, 0, now + CloudWriter.calculateBackoff rc 0⟩]) := by
  constructor
  · intro rc ps
    induction ps with
    | nil => intro q now h; simpa using h
    | cons p rest ih =>
      intro q now h
      simpa using ih (CloudWriter.queuePayload rc q p now) now
        (CloudWriter.queuePayload_length_le rc q p now h)
  · intro rc q p now h
    unfold CloudWriter.queuePayload
    rw [if_pos (le_of_eq h.symm)]

/-- C9 witness: a queue of exactly 100 entries evicts its head on enqueue,
and folding two enqueues from the empty queue stays within the bound. -/
theorem c9_witness :
    ((["a", "b"].foldl
        (fun acc p => CloudWriter.queuePayload CloudWriter.defaultRetryConfig acc p 0)
        ([] : List (CloudWriter.QueuedPayload String))).length ≤ CloudWriter.maxQueue)
  ∧ CloudWriter.queuePayload CloudWriter.defaultRetryConfig
      (List.replicate 100 ⟨"old", 0, 0⟩) "new" 0 =
      (List.replicate 100 (⟨"old", 0, 0⟩ : CloudWriter.QueuedPayload String)).drop 1
        ++ [⟨"new", 0, 0 + CloudWriter.calculateBackoff CloudWriter.defaultRetryConfig 0⟩] :=
  ⟨c9_queue_bounded_evicts_oldest.1 CloudWriter.defaultRetryConfig ["a", "b"] [] 0
      (by simp),
   c9_queue_bounded_evicts_oldest.2 CloudWriter.defaultRetryConfig
      (List.replicate 100 ⟨"old", 0, 0⟩) "new" 0 (by simp [CloudWriter.maxQueue])⟩

/-- C8 counterexample: with the default configuration (multiplier 2,
max backoff 5 min) and attempt count 2, the code computes
`(2+1) × 2 × 1 s = 6 s` while the spec formula
`clamp(multiplier^attempts × base, max_backoff)` gives `2² × 1 s = 4 s`;
the two disagree, so the multiplier is not applied exponentially. -/
theorem c8_counterexample :
    CloudWriter.calculateBackoff CloudWriter.defaultRetryConfig 2 = 6 * CloudWriter.second
  ∧ CloudWriter.specBackoff CloudWriter.defaultRetryConfig 2 = 4 * CloudWriter.second
  ∧ CloudWriter.calculateBackoff CloudWriter.defaultRetryConfig 2
      ≠ CloudWriter.specBackoff CloudWriter.defaultRetryConfig 2 := by
  refine ⟨?_, ?_, ?_⟩ <;>
    norm_num [CloudWriter.calculateBackoff, CloudWriter.specBackoff,
      CloudWriter.defaultRetryConfig, CloudWriter.second]

/-- C8 amended: the backoff the cloud writer computes is
`clamp((attempts + 1) × multiplier × 1 s, max_backoff)` — linear, not
exponential, in the attempt count, with multiplier and max backoff taken
from the retry configuration and the base fixed at one second; it never
exceeds `max_backoff` and is monotone in the attempt count whenever the
multiplier is non-negative. -/
theorem c8_backoff_linear_clamped (rc : CloudWriter.RetryConfig) (attempts : Nat) :
    CloudWriter.calculateBackoff rc attempts =
      min (CloudWriter.second * ((attempts : ℚ) + 1) * rc.backoffMultiplier) rc.maxBackoff
  ∧ CloudWriter.calculateBackoff rc attempts ≤ rc.maxBackoff
  ∧ (0 ≤ rc.backoffMultiplier → ∀ a b : Nat, a ≤ b →
      CloudWriter.calculateBackoff rc a ≤ CloudWriter.calculateBackoff rc b) := by
  have hmin : ∀ n : Nat, CloudWriter.calculateBackoff rc n =
      min (CloudWriter.second * ((n : ℚ) + 1) * rc.backoffMultiplier) rc.maxBackoff := by
    intro n
    unfold CloudWriter.calculateBackoff
    by_cases h : CloudWriter.second * ((n : ℚ) + 1) * rc.backoffMultiplier > rc.maxBackoff
    · simp only [h, if_pos]
      exact (min_eq_right (le_of_lt h)).symm
    · simp only [h, if_neg, not_false_iff]
      exact (min_eq_left (not_lt.mp h)).symm
  refine ⟨hmin attempts, ?_, ?_⟩
  · rw [hmin attempts]; exact min_le_right _ _
  · intro hnn a b hab
    rw [hmin a, hmin b]
    refine min_le_min ?_ le_rfl
    have hq : ((a : ℚ) + 1) ≤ ((b : ℚ) + 1) := by
      have : (a : ℚ) ≤ (b : ℚ) := by exact_mod_cast hab
      linarith
    have hsec : (0 : ℚ) ≤ CloudWriter.second := by norm_num [CloudWriter.second]
    have h1 : CloudWriter.second * ((a : ℚ) + 1) ≤ CloudWriter.second * ((b : ℚ) + 1) :=
      mul_le_mul_of_nonneg_left hq hsec
    exact mul_le_mul_of_nonneg_right h1 hnn

/-- C8 witness: the amended formula, bound and monotonicity evaluated at
the default configuration and attempts 0 ≤ 3. -/
theorem c8_witness :
    CloudWriter.calculateBackoff CloudWriter.defaultRetryConfig 3 =
      min (CloudWriter.second * ((3 : ℚ) + 1) *
        CloudWriter.defaultRetryConfig.backoffMultiplier)
        CloudWriter.defaultRetryConfig.maxBackoff
  ∧ CloudWriter.calculateBackoff CloudWriter.defaultRetryConfig 3
      ≤ CloudWriter.defaultRetryConfig.maxBackoff
  ∧ CloudWriter.calculateBackoff CloudWriter.defaultRetryConfig 0
      ≤ CloudWriter.calculateBackoff CloudWriter.defaultRetryConfig 3 :=
  ⟨(c8_backoff_linear_clamped CloudWriter.defaultRetryConfig 3).1,
   (c8_backoff_linear_clamped CloudWriter.defaultRetryConfig 3).2.1,
   (c8_backoff_linear_clamped CloudWriter.defaultRetryConfig 3).2.2
     (by norm_num [CloudWriter.defaultRetryConfig]) 0 3 (by norm_num)⟩

/-- C6 counterexample: a `404` response is a client error other than `401`
and `429`, which the claim says is dropped and never enqueued; the code's
status switch has no case for it, so the `default` branch enqueues the
envelope for retry. -/
theorem c6_counterexample :
    CloudWriter.enqueuesForRetry (.status 404) = true
  ∧ CloudWriter.sendPayload CloudWriter.defaultRetryConfig
      ([] : List (CloudWriter.QueuedPayload String)) "env" 0 (.status 404) =
      CloudWriter.queuePayload CloudWriter.defaultRetryConfig [] "env" 0 := by
  constructor
  · rfl
  · rfl

/-- C6 amended: the cloud writer drops the envelope (leaving the retry
queue untouched) exactly on statuses 202, 400, 401 and 403; every other
status — 429, all 5xx, but also every other 4xx such as 404 — and every
network failure enqueues the envelope for retry. -/
theorem c6_response_policy (rc : CloudWriter.RetryConfig)
    (q : List (CloudWriter.QueuedPayload String)) (p : String) (now : ℚ) (code : Nat) :
    (code = 202 ∨ code = 400 ∨ code = 401 ∨ code = 403 →
       CloudWriter.sendPayload rc q p now (.status code) = q)
  ∧ (code ≠ 202 → code ≠ 400 → code ≠ 401 → code ≠ 403 →
       CloudWriter.sendPayload rc q p now (.status code) =
         CloudWriter.queuePayload rc q p now)
  ∧ CloudWriter.sendPayload rc q p now .networkError =
      CloudWriter.queuePayload rc q p now := by
  refine ⟨?_, ?_, ?_⟩
  · rintro (rfl | rfl | rfl | rfl) <;> rfl
  · intro h202 h400 h401 h403
    unfold CloudWriter.sendPayload CloudWriter.enqueuesForRetry
    simp [h202, h400, h401, h403]
  · rfl

/-- C6 witness: a 429 response and a 503 response are enqueued for retry,
and a 403 response is dropped, at concrete inputs. -/
theorem c6_witness :
    CloudWriter.sendPayload CloudWriter.defaultRetryConfig [] "a" 0 (.status 429) =
      CloudWriter.queuePayload CloudWriter.defaultRetryConfig [] "a" 0
  ∧ CloudWriter.sendPayload CloudWriter.defaultRetryConfig [] "b" 0 (.status 503) =
      CloudWriter.queuePayload CloudWriter.defaultRetryConfig [] "b" 0
  ∧ CloudWriter.sendPayload CloudWriter.defaultRetryConfig [] "c" 0 (.status 403) = [] :=
  ⟨(c6_response_policy CloudWriter.defaultRetryConfig [] "a" 0 429).2.1
      (by decide) (by decide) (by decide) (by decide),
   (c6_response_policy CloudWriter.defaultRetryConfig [] "b" 0 503).2.1
      (by decide) (by decide) (by decide) (by decide),
   (c6_response_policy CloudWriter.defaultRetryConfig [] "c" 0 403).1
      (by decide)⟩

namespace TelemetryWriter

/-- `models.Telemetry`: one envelope as the telemetry writer receives it
from the durable log. The JSONB `metrics` and `tags` blobs are kept
opaque as association lists. -/
structure Telemetry where
  deviceID : String
  collectedAt : Int
  metrics : List (String × String)
  tags : List (String × String)
  seq : Int
  ingestionID : String
deriving DecidableEq

/-- Primary key of the partitioned `telemetry` history table:
`(device_id, collected_at, seq)`. -/
def keyOf (t : Telemetry) : String × Int × Int := (t.deviceID, t.collectedAt, t.seq)

/-- One row of `telemetry_latest` (keyed by `device_id`, which is the
argument of the map below). -/
structure LatestRow where
  collectedAt : Int
  metrics : List (String × String)
  tags : List (String × String)
  seq : Int
  serverReceivedAt : Int
deriving DecidableEq

/-- The database state the writer touches: the append-only history table
and the per-device `latest` table (a map keyed by its primary key
`device_id`). -/
structure DBState where
  history : List Telemetry
  latest : String → Option LatestRow

/-- Columns of `telemetry_latest` as the migration in `api/main.go`
creates it: `device_id, collected_at, metrics, tags, seq,
server_received_at` — there is no `ingestion_id` column. -/
def latestTableColumns : List String :=
  ["device_id", "collected_at", "metrics", "tags", "seq", "server_received_at"]

/-- The column list named by the writer's upsert statement
`INSERT INTO telemetry_latest (device_id, collected_at, metrics, tags,
seq, ingestion_id) ...`. -/
def latestUpsertColumns : List String :=
  ["device_id", "collected_at", "metrics", "tags", "seq", "ingestion_id"]

/-- Whether every column the upsert names exists on the table; PostgreSQL
rejects the statement with an undefined-column error otherwise. -/
def latestUpsertValid : Bool :=
  latestUpsertColumns.all fun c => latestTableColumns.contains c

/-- The `ON CONFLICT (device_id) DO UPDATE` upsert into `telemetry_latest`:
when the named column list is valid against the table it overwrites the
device's row with `server_received_at = NOW()`; but the statement names
`ingestion_id`, which `telemetry_latest` does not have, so executing it
raises undefined-column and the call errors. -/
def upsertLatest (l : String → Option LatestRow) (t : Telemetry) (now : Int) :
    Except Unit (String → Option LatestRow) :=
  if latestUpsertValid then
    .ok fun d => if d = t.deviceID
      then some ⟨t.collectedAt, t.metrics, t.tags, t.seq, now⟩
      else l d
  else .error ()

/-- `TelemetryWriter.writeTelemetry`: one transaction that inserts the row
into `telemetry` and then upserts `telemetry_latest`; any error rolls the
transaction back, leaving the state unchanged (hence `Except`). The
history insert carries no `ON CONFLICT` clause, so a row whose key is
already present violates the primary key; and on a fresh key the
`telemetry_latest` upsert fails on its undefined `ingestion_id` column,
so the commit is never reached. -/
def writeTelemetry (s : DBState) (t : Telemetry) (now : Int) : Except Unit DBState :=
  if s.history.any (fun r => decide (keyOf r = keyOf t)) then .error ()
  else
    match upsertLatest s.latest t now with
    | .ok latest' => .ok ⟨s.history ++ [t], latest'⟩
    | .error _ => .error ()

/-- Message disposition in `handleMessage`: `Ack` on success, `Nak` (and
redelivery) when `writeTelemetry` fails. -/
inductive MsgOutcome
  | ack
  | nak
deriving DecidableEq

/-- `handleMessage` for an already-decoded envelope: on a write error the
message is negatively acknowledged and the database is untouched. -/
def handleMessage (s : DBState) (t : Telemetry) (now : Int) : DBState × MsgOutcome :=
  match writeTelemetry s t now with
  | .ok s' => (s', .ack)
  | .error _ => (s, .nak)

/-- One delivery of the envelope by the durable log: the state after
`handleMessage` processes it. -/
def deliver (s : DBState) (t : Telemetry) (now : Int) : DBState :=
  (handleMessage s t now).1

/-- A sequence of redeliveries of the same envelope, one per receive
instant. -/
def deliverMany (t : Telemetry) : List Int → DBState → DBState
  | [], s => s
  | now :: rest, s => deliverMany t rest (deliver s t now)

/-- Number of history rows carrying the envelope's key. -/
def countKey (s : DBState) (t : Telemetry) : Nat :=
  s.history.countP (fun r => decide (keyOf r = keyOf t))

theorem latestUpsertValid_false : latestUpsertValid = false := by decide

theorem writeTelemetry_always_error (s : DBState) (t : Telemetry) (now : Int) :
    writeTelemetry s t now = .error () := by
  unfold writeTelemetry
  by_cases hdup : s.history.any (fun r => decide (keyOf r = keyOf t)) = true
  · rw [if_pos hdup]
  · rw [if_neg hdup]
    unfold upsertLatest
    rw [if_neg (by simp [latestUpsertValid_false])]

theorem deliver_fixed (s : DBState) (t : Telemetry) (now : Int) :
    deliver s t now = s := by
  unfold deliver handleMessage
  rw [writeTelemetry_always_error s t now]

theorem deliverMany_fixed (s : DBState) (t : Telemetry) (nows : List Int) :
    deliverMany t nows s = s := by
  induction nows with
  | nil => rfl
  | cons now rest ih =>
    unfold deliverMany
    rw [deliver_fixed s t now, ih]

end TelemetryWriter

/-- A concrete envelope for evaluating the writer at the failing input. -/
def telemetryEnvelopeEx : TelemetryWriter.Telemetry :=
  ⟨"dev-1", 5, [("cpu.utilization", "12")], [], 0, "ing-1"⟩

/-- An empty database state: the state before the first delivery. -/
def emptyDBEx : TelemetryWriter.DBState := ⟨[], fun _ => none⟩

/-- C1: the writer's `telemetry_latest` upsert names the column
`ingestion_id`, which the migration's `telemetry_latest` table does not
have, so the statement fails on every execution: every `writeTelemetry`
call — the first delivery of an envelope included, not only redeliveries
— errors, rolls back and is Nak-ed, the database state never changes, and
in particular the claimed outcome of exactly one history row for the
envelope is never reached (the row count stays at its initial value,
zero from an empty database, as the concrete evaluation shows). -/
theorem c1_latest_upsert_undefined_column (s : TelemetryWriter.DBState)
    (t : TelemetryWriter.Telemetry) (now : Int) (nows : List Int) :
    ("ingestion_id" ∈ TelemetryWriter.latestUpsertColumns
      ∧ "ingestion_id" ∉ TelemetryWriter.latestTableColumns
      ∧ TelemetryWriter.latestUpsertValid = false)
  ∧ TelemetryWriter.writeTelemetry s t now = .error ()
  ∧ TelemetryWriter.handleMessage s t now = (s, .nak)
  ∧ TelemetryWriter.deliverMany t nows s = s
  ∧ TelemetryWriter.countKey (TelemetryWriter.deliverMany t nows s) t
      = TelemetryWriter.countKey s t
  ∧ TelemetryWriter.writeTelemetry emptyDBEx telemetryEnvelopeEx 10 = .error ()
  ∧ TelemetryWriter.countKey
      (TelemetryWriter.deliverMany telemetryEnvelopeEx [10, 11, 12] emptyDBEx)
      telemetryEnvelopeEx = 0 := by
  refine ⟨⟨by decide, by decide, TelemetryWriter.latestUpsertValid_false⟩,
    TelemetryWriter.writeTelemetry_always_error s t now, ?_, ?_, ?_, ?_, ?_⟩
  · unfold TelemetryWriter.handleMessage
    rw [TelemetryWriter.writeTelemetry_always_error s t now]
  · exact TelemetryWriter.deliverMany_fixed s t nows
  · rw [TelemetryWriter.deliverMany_fixed s t nows]
  · exact TelemetryWriter.writeTelemetry_always_error emptyDBEx telemetryEnvelopeEx 10
  · rw [TelemetryWriter.deliverMany_fixed emptyDBEx telemetryEnvelopeEx [10, 11, 12]]
    rfl

namespace Commands

/-- The JSONB `result` column of a command: SQL NULL, the result map
parsed from the acknowledgement body (kept opaque), or the single-entry
error map `AckCommand` builds from a non-empty error string. -/
inductive ResultVal
  | null
  | ofBody (raw : String)
  | ofError (msg : String)
deriving DecidableEq

/-- `models.Command`, one row of the `commands` table. `uuid.Nil` is
modelled as the empty string; `parameters` is an opaque JSONB blob. -/
structure Command where
  commandID : String
  deviceID : String
  type : String
  parameters : String
  issuedAt : Int
  ttlSeconds : Int
  status : String
  result : ResultVal
  completedAt : Option Int
deriving DecidableEq

/-- Status of the first row carrying a command id. -/
def statusOf (db : List Command) (id : String) : Option String :=
  (db.find? (fun c => decide (c.commandID = id))).map (fun c => c.status)

/-- `CommandHandler.AckCommand`: derive the terminal status from the
acknowledgement body (`failed` and the error map when `error` is
non-empty, otherwise `completed` and the body's result), then run an
unconditional `UPDATE ... SET status, result, completed_at = NOW()
WHERE command_id = $3 AND device_id = $4` — no guard on the current
status. -/
def ackCommand (db : List Command) (deviceID commandID : String)
    (result : String) (error : String) (now : Int) : List Command :=
  let status := if error ≠ "" then "failed" else "completed"
  let rv : ResultVal := if error ≠ "" then .ofError error else .ofBody result
  db.map (fun c =>
    if c.commandID = commandID ∧ c.deviceID = deviceID then
      { c with status := status, result := rv, completedAt := some now }
    else c)

/-- `CommandHandler.GetCommands` row filter: the SQL selects the device's
rows with `status = 'pending'` and `issued_at + ttl_seconds > NOW()`,
ordered by `issued_at` (the table list is taken in that order). -/
def pendingFor (db : List Command) (d : String) (now : Int) : List Command :=
  db.filter (fun c =>
    decide (c.deviceID = d) && decide (c.status = "pending")
      && decide (now < c.issuedAt + c.ttlSeconds))

/-- `CommandHandler.GetCommands`: return the pending unexpired commands
and then set `status = 'executing'` on every returned `command_id`
(`UPDATE commands SET status = 'executing' WHERE command_id = $1` per
returned row). Result: (response body, table afterwards). -/
def getCommands (db : List Command) (d : String) (now : Int) :
    List Command × List Command :=
  let returned := pendingFor db d now
  (returned,
   db.map (fun c =>
     if returned.any (fun r => decide (r.commandID = c.commandID)) then
       { c with status := "executing" }
     else c))

/-- The agent-side concurrency cap: `make(chan struct\x7b\x7d, 2)` in
`NewCommandPoller`. -/
def commandCap : Nat := 2

/-- The overflow commands of one `CommandPoller.Poll` cycle: with the
semaphore cap at `commandCap` and no slot freed during the loop, the
first `commandCap` returned commands are launched and the rest hit the
`default` branch and are skipped. -/
def pollSkipped (returned : List Command) : List Command :=
  returned.drop commandCap

end Commands

/-- C2 counterexample: a command acknowledged first with a success body
(`completed`) and then with an error body ends `failed` — the second
acknowledgement overwrites the first terminal status instead of being a
no-op, refuting idempotence by `command_id`. -/
theorem c2_counterexample :
    Commands.statusOf
      (Commands.ackCommand
        [⟨"c1", "d1", "collect.now", "", 0, 120, "executing", .null, none⟩]
        "d1" "c1" "ok" "" 10) "c1" = some "completed"
  ∧ Commands.statusOf
      (Commands.ackCommand
        (Commands.ackCommand
          [⟨"c1", "d1", "collect.now", "", 0, 120, "executing", .null, none⟩]
          "d1" "c1" "ok" "" 10)
        "d1" "c1" "" "boom" 20) "c1" = some "failed"
  ∧ some "failed" ≠ some "completed" := by
  refine ⟨by decide, by decide, by decide⟩

/-- C2 amended: acknowledgement is keyed by `(command_id, device_id)` and
unconditionally overwrites `status`, `result` and `completed_at`, so two
acknowledgements of the same command leave exactly the state of the
second (last-writer-wins); in particular repeating an identical
acknowledgement changes nothing further, but the final status is that of
the last — not the first — terminal acknowledgement. -/
theorem c2_ack_last_writer_wins (db : List Commands.Command) (d cid : String)
    (r₁ e₁ : String) (t₁ : Int) (r₂ e₂ : String) (t₂ : Int) :
    Commands.ackCommand (Commands.ackCommand db d cid r₁ e₁ t₁) d cid r₂ e₂ t₂
      = Commands.ackCommand db d cid r₂ e₂ t₂ := by
  unfold Commands.ackCommand
  rw [List.map_map]
  apply List.map_congr_left
  intro c _
  by_cases h : c.commandID = cid ∧ c.deviceID = d
  · simp only [Function.comp_apply, h, and_self, if_pos, if_true]
  · simp only [Function.comp_apply, h, if_neg, not_false_iff, if_false]

/-- Three concrete pending commands of one device for the C7
counterexample: one more than the agent's concurrency cap. -/
def cmdsEx : List Commands.Command :=
  [⟨"c1", "d", "collect.now", "", 0, 100, "pending", .null, none⟩,
   ⟨"c2", "d", "collect.now", "", 1, 100, "pending", .null, none⟩,
   ⟨"c3", "d", "collect.now", "", 2, 100, "pending", .null, none⟩]

/-- C7 counterexample: with three pending commands and cap 2, the third
command is the overflow the agent skips; yet the server has already set
it to `executing` when the poll returned it, so it is not `pending` and
the next poll's response does not contain it. -/
theorem c7_counterexample :
    Commands.pollSkipped (Commands.getCommands cmdsEx "d" 10).1 =
      [⟨"c3", "d", "collect.now", "", 2, 100, "pending", .null, none⟩]
  ∧ Commands.statusOf (Commands.getCommands cmdsEx "d" 10).2 "c3" = some "executing"
  ∧ (Commands.getCommands (Commands.getCommands cmdsEx "d" 10).2 "d" 11).1.map
      (fun c => c.commandID) = [] := by
  refine ⟨by decide, by decide, by decide⟩

/-- C7 amended: a command the agent skips for exceeding the concurrency
cap was part of the poll response, and the server marks every returned
command `executing` at poll time; therefore the skipped command does not
remain `pending` — every row carrying its id is `executing` after the
poll — and its id is absent from the response of the device's next poll. -/
theorem c7_skipped_commands_not_returned (db : List Commands.Command)
    (d : String) (now now' : Int) (c r : Commands.Command)
    (hc : c ∈ Commands.pollSkipped (Commands.getCommands db d now).1)
    (hr : r ∈ (Commands.getCommands db d now).2)
    (hid : r.commandID = c.commandID) :
    c ∈ (Commands.getCommands db d now).1
  ∧ r.status = "executing"
  ∧ c.commandID ∉
      ((Commands.getCommands (Commands.getCommands db d now).2 d now').1.map
        (fun x => x.commandID)) := by
  have hmem : c ∈ (Commands.getCommands db d now).1 := by
    unfold Commands.pollSkipped at hc
    exact List.mem_of_mem_drop hc
  have hexec : ∀ r' ∈ (Commands.getCommands db d now).2,
      r'.commandID = c.commandID → r'.status = "executing" := by
    intro r' hr' hid'
    unfold Commands.getCommands at hr' hmem
    simp only [List.mem_map] at hr'
    obtain ⟨c₀, hc₀, hmap⟩ := hr'
    by_cases hany : (Commands.pendingFor db d now).any
        (fun x => decide (x.commandID = c₀.commandID)) = true
    · rw [if_pos hany] at hmap
      rw [← hmap]
    · rw [if_neg (by simpa using hany)] at hmap
      exfalso
      apply hany
      rw [List.any_eq_true]
      refine ⟨c, hmem, ?_⟩
      rw [← hmap] at hid'
      simp [hid']
  refine ⟨hmem, hexec r hr hid, ?_⟩
  intro habs
  simp only [List.mem_map] at habs
  obtain ⟨x, hx, hxid⟩ := habs
  have hxpend : x.status = "pending" := by
    unfold Commands.getCommands Commands.pendingFor at hx
    simp only [List.mem_filter, Bool.and_eq_true, decide_eq_true_eq] at hx
    exact hx.2.1.2
  have hxdb : x ∈ (Commands.getCommands db d now).2 := by
    unfold Commands.getCommands Commands.pendingFor at hx ⊢
    simp only [List.mem_filter] at hx
    exact hx.1
  have := hexec x hxdb hxid
  rw [this] at hxpend
  exact absurd hxpend (by decide)

/-- C7 witness: the amended statement applied to the concrete
three-command table, with the overflow command `c3` and its
post-poll row. -/
theorem c7_witness :
    (⟨"c3", "d", "collect.now", "", 2, 100, "pending", .null, none⟩ : Commands.Command)
      ∈ (Commands.getCommands cmdsEx "d" 10).1
  ∧ (⟨"c3", "d", "collect.now", "", 2, 100, "executing", .null, none⟩ :
      Commands.Command).status = "executing"
  ∧ "c3" ∉ ((Commands.getCommands (Commands.getCommands cmdsEx "d" 10).2 "d" 11).1.map
      (fun x => x.commandID)) :=
  c7_skipped_commands_not_returned cmdsEx "d" 10 11
    ⟨"c3", "d", "collect.now", "", 2, 100, "pending", .null, none⟩
    ⟨"c3", "d", "collect.now", "", 2, 100, "executing", .null, none⟩
    (by decide) (by decide) (by decide)

namespace Commands

/-- `Command.Validate` from `api/internal/models/command.go`: requires a
non-nil `device_id` (here non-empty), a non-empty `type`, and
`0 < ttl_seconds ≤ 3600`; returns the first error message, `none` when
valid. -/
def validate (c : Command) : Option String :=
  if c.deviceID = "" then some "device_id is required"
  else if c.type = "" then some "type is required"
  else if c.ttlSeconds ≤ 0 then some "ttl_seconds must be positive"
  else if c.ttlSeconds > 3600 then some "ttl_seconds cannot exceed 3600"
  else none

/-- The decoded body of `POST /v1/commands` (`models.Command` through
`BodyParser`): absent JSON numbers decode to 0, absent strings to "". -/
structure CreateCommandRequest where
  deviceID : String
  type : String
  parameters : String
  ttlSeconds : Int
deriving DecidableEq

/-- `CommandAdminHandler.CreateCommand`: fill in a fresh `command_id`,
`status = "pending"`, `issued_at = now`; replace `ttl_seconds = 0` by the
default 3600; then `Validate` — on error respond 400 and insert nothing,
otherwise insert the row and respond 201. Result: (status code, table
afterwards). -/
def createCommand (db : List Command) (req : CreateCommandRequest)
    (genID : String) (now : Int) : Nat × List Command :=
  let cmd : Command :=
    { commandID := genID, deviceID := req.deviceID, type := req.type,
      parameters := req.parameters, issuedAt := now,
      ttlSeconds := if req.ttlSeconds = 0 then 3600 else req.ttlSeconds,
      status := "pending", result := .null, completedAt := none }
  match validate cmd with
  | some _ => (400, db)
  | none => (201, db ++ [cmd])

end Commands

/-- C10 counterexample: a creation request with `ttl_seconds = 0` — a
value outside `(0, 3600]` which the claim says is rejected — is accepted:
the handler replaces 0 by the default 3600, validation passes, the row is
inserted and the response is 201. -/
theorem c10_counterexample :
    Commands.createCommand [] ⟨"d1", "collect.now", "", 0⟩ "cid" 7 =
      (201, [⟨"cid", "d1", "collect.now", "", 7, 3600, "pending", .null, none⟩]) := by
  decide

/-- C10 amended: a creation request with `ttl_seconds` negative or greater
than 3600 is rejected with 400 and no row is inserted; `ttl_seconds = 0`
is not rejected — it is treated as "not provided", replaced by the
default 3600, and (with device and type present) the command is created
with 201; a `ttl_seconds` inside `(0, 3600]` is likewise accepted. -/
theorem c10_ttl_validation (db : List Commands.Command)
    (req : Commands.CreateCommandRequest) (genID : String) (now : Int) :
    (req.ttlSeconds < 0 ∨ req.ttlSeconds > 3600 →
       Commands.createCommand db req genID now = (400, db))
  ∧ (req.ttlSeconds = 0 → req.deviceID ≠ "" → req.type ≠ "" →
       Commands.createCommand db req genID now =
         (201, db ++ [⟨genID, req.deviceID, req.type, req.parameters, now, 3600,
           "pending", .null, none⟩]))
  ∧ (0 < req.ttlSeconds → req.ttlSeconds ≤ 3600 → req.deviceID ≠ "" → req.type ≠ "" →
       Commands.createCommand db req genID now =
         (201, db ++ [⟨genID, req.deviceID, req.type, req.parameters, now,
           req.ttlSeconds, "pending", .null, none⟩])) := by
  refine ⟨?_, ?_, ?_⟩
  · intro hout
    unfold Commands.createCommand Commands.validate
    have hne : ¬ req.ttlSeconds = 0 := by omega
    simp only [hne, if_neg, not_false_iff]
    by_cases hd : req.deviceID = ""
    · simp [hd]
    · by_cases ht : req.type = ""
      · simp [hd, ht]
      · rcases hout with hneg | hbig
        · simp [hd, ht, show req.ttlSeconds ≤ 0 by omega]
        · simp [hd, ht, show ¬ req.ttlSeconds ≤ 0 by omega, hbig]
  · intro h0 hd ht
    unfold Commands.createCommand Commands.validate
    simp [h0, hd, ht]
  · intro hpos hle hd ht
    unfold Commands.createCommand Commands.validate
    simp [show ¬ req.ttlSeconds = 0 by omega, hd, ht,
      show ¬ req.ttlSeconds ≤ 0 by omega, show ¬ req.ttlSeconds > 3600 by omega]

/-- C10 witness: the amended statement evaluated at `ttl_seconds = 5000`
(rejected), `ttl_seconds = 0` (defaulted and created) and
`ttl_seconds = 120` (created). -/
theorem c10_witness :
    Commands.createCommand [] ⟨"d1", "collect.now", "", 5000⟩ "g1" 0 = (400, [])
  ∧ Commands.createCommand [] ⟨"d1", "collect.now", "", 0⟩ "g2" 0 =
      (201, [⟨"g2", "d1", "collect.now", "", 0, 3600, "pending", .null, none⟩])
  ∧ Commands.createCommand [] ⟨"d1", "collect.now", "", 120⟩ "g3" 0 =
      (201, [⟨"g3", "d1", "collect.now", "", 0, 120, "pending", .null, none⟩]) :=
  ⟨(c10_ttl_validation [] ⟨"d1", "collect.now", "", 5000⟩ "g1" 0).1
      (Or.inr (by decide)),
   by
     have := (c10_ttl_validation [] ⟨"d1", "collect.now", "", 0⟩ "g2" 0).2.1
       (by decide) (by decide) (by decide)
     simpa using this,
   by
     have := (c10_ttl_validation [] ⟨"d1", "collect.now", "", 120⟩ "g3" 0).2.2
       (by decide) (by decide) (by decide) (by decide)
     simpa using this⟩

namespace AdminAuth

/-- `config.APIConfig` from `api/internal/config/config.go`; `JWTSecret`
is the admin token secret the environment supplies. -/
structure APIConfig where
  databaseURL : String
  natsURL : String
  serverPort : String
  tlsCertFile : String
  tlsKeyFile : String
  jwtSecret : String
  logLevel : String
  rateLimitRPS : Int
  maxBatchSize : Int
deriving DecidableEq

/-- Outcome of the middleware: a 401 rejection with its message, or
passing control to the next handler with the `admin_user` local set. -/
inductive AuthOutcome
  | reject (code : Nat) (msg : String)
  | next (adminUser : String)
deriving DecidableEq

/-- `auth.AdminAuthMiddleware` from `api/internal/auth/admin_auth.go`,
with the server configuration in scope (in `main.go` the middleware is
constructed by `AdminAuthMiddleware()` with no arguments, so the body
never consults `cfg`): require a non-empty `Authorization` header with a
`Bearer ` value; strip the prefix; then accept when the token is the
literal `"admin-token"` or longer than 10 characters — a TODO in place of
real validation, with no comparison against any stored secret.
(`strings.HasPrefix` is modelled as a prefix test on the character
list.) -/
def adminAuthMiddleware (cfg : APIConfig) (authHeader : String) : AuthOutcome :=
  if authHeader = "" then .reject 401 "Authorization header required"
  else if List.isPrefixOf "Bearer ".data authHeader.data = false then
    .reject 401 "Bearer token required"
  else
    let token := authHeader.drop 7
    if token = "" then .reject 401 "Token cannot be empty"
    else if token = "admin-token" ∨ token.length > 10 then .next "admin"
    else .reject 401 "Invalid admin token"

end AdminAuth

/-- C3: any request whose Authorization header is a bearer token longer
than 10 characters is passed to the next handler by the admin middleware,
and the middleware's decision on every header is identical under any two
server configurations — in particular under two configurations that
differ only in the admin token secret — so no stored secret takes part in
the decision. -/
theorem c3_admin_auth_ignores_secret (cfg cfg' : AdminAuth.APIConfig) (hdr : String)
    (hb : List.isPrefixOf "Bearer ".data hdr.data = true)
    (hlen : 10 < (hdr.drop 7).length) :
    AdminAuth.adminAuthMiddleware cfg hdr = .next "admin"
  ∧ ∀ h : String, AdminAuth.adminAuthMiddleware cfg h =
      AdminAuth.adminAuthMiddleware cfg' h := by
  constructor
  · have hne : ¬ hdr = "" := by
      intro h0
      subst h0
      have h1 : (("" : String).drop 7).length = 0 := rfl
      omega
    have htne : ¬ hdr.drop 7 = "" := by
      intro h0
      have h1 : (hdr.drop 7).length = 0 := by rw [h0]; rfl
      omega
    unfold AdminAuth.adminAuthMiddleware
    rw [if_neg hne, if_neg (by simp [hb]), if_neg htne, if_pos (Or.inr hlen)]
  · intro h
    rfl

/-- C3 witness: a 12-character token is authorized under two
configurations that differ only in the admin token secret, and the
decisions coincide on a concrete header. -/
theorem c3_witness :
    AdminAuth.adminAuthMiddleware
      ⟨"db", "nats", "8080", "", "", "secret-one", "info", 100, 1000⟩
      "Bearer abcdefghijkl" = .next "admin"
  ∧ AdminAuth.adminAuthMiddleware
      ⟨"db", "nats", "8080", "", "", "secret-one", "info", 100, 1000⟩
      "Bearer x" =
    AdminAuth.adminAuthMiddleware
      ⟨"db", "nats", "8080", "", "", "secret-two", "info", 100, 1000⟩
      "Bearer x" :=
  ⟨(c3_admin_auth_ignores_secret
      ⟨"db", "nats", "8080", "", "", "secret-one", "info", 100, 1000⟩
      ⟨"db", "nats", "8080", "", "", "secret-two", "info", 100, 1000⟩
      "Bearer abcdefghijkl" (by decide) (by decide)).1,
   (c3_admin_auth_ignores_secret
      ⟨"db", "nats", "8080", "", "", "secret-one", "info", 100, 1000⟩
      ⟨"db", "nats", "8080", "", "", "secret-two", "info", 100, 1000⟩
      "Bearer abcdefghijkl" (by decide) (by decide)).2 "Bearer x"⟩

namespace Ingest

/-- `scheduler.TelemetryPayload` from
`agent/internal/scheduler/scheduler.go`: the envelope the agent builds
and publishes. Its only fields are `device_id`, `agent_version`,
`collected_at` and `metrics` — the struct has no `seq` field at all. -/
structure TelemetryPayload where
  deviceID : String
  agentVersion : String
  collectedAt : Int
  metrics : List (String × String)
deriving DecidableEq

/-- `Scheduler.collectAndWrite`: stamp the envelope with the configured
device id, the agent version literal `"1.0.0"`, the current UTC time, and
the successful collector results (failed collectors are simply absent). -/
def collectAndWrite (cfgDeviceID : String) (now : Int)
    (results : List (String × String)) : TelemetryPayload :=
  ⟨cfgDeviceID, "1.0.0", now, results⟩

/-- `InventoryHandler.Ingest`, record construction: the accepted payload
becomes a `models.Telemetry` with a fresh ingestion id and the literal
`Seq: 0` (the handler comment reads `TODO: Implement sequence numbers`);
no component of the payload can raise it. -/
def ingestRecord (deviceID : String) (p : TelemetryPayload) (ingestionID : String) :
    TelemetryWriter.Telemetry :=
  { deviceID := deviceID, collectedAt := p.collectedAt, metrics := p.metrics,
    tags := [], seq := 0, ingestionID := ingestionID }

end Ingest

/-- C5: the envelope does carry `device_id`, `agent_version` and
`collected_at`, but every ingested envelope is stamped `seq = 0` — the
agent payload has no `seq` field and the ingest handler hard-codes 0 — so
for any two successive envelopes of the same device the later one's `seq`
is never strictly greater than the earlier one's, refuting the claimed
per-device monotonically increasing sequence. -/
theorem c5_seq_always_zero (c : String) (now now' : Int)
    (res res' : List (String × String)) (d i i' : String) :
    (Ingest.collectAndWrite c now res).deviceID = c
  ∧ (Ingest.collectAndWrite c now res).agentVersion = "1.0.0"
  ∧ (Ingest.collectAndWrite c now res).collectedAt = now
  ∧ (Ingest.ingestRecord d (Ingest.collectAndWrite c now res) i).seq = 0
  ∧ (Ingest.ingestRecord d (Ingest.collectAndWrite c now' res') i').seq = 0
  ∧ ¬ (Ingest.ingestRecord d (Ingest.collectAndWrite c now res) i).seq <
      (Ingest.ingestRecord d (Ingest.collectAndWrite c now' res') i').seq :=
  ⟨rfl, rfl, rfl, rfl, rfl, by simp [Ingest.ingestRecord]⟩

namespace PolicyModel

/-- `models.MetricConfig`. -/
structure MetricConfig where
  enabled : Bool
deriving DecidableEq

/-- `models.PolicyConfig`: the collection interval and the metric map
(a Go map, modelled as an association list; only key membership matters
to the code under verification). -/
structure PolicyConfig where
  intervalSeconds : Int
  metrics : List (String × MetricConfig)
deriving DecidableEq

/-- `models.Policy`, one row of the `policies` table. -/
structure Policy where
  policyID : Int
  deviceID : Option String
  groupID : Option Int
  scope : String
  version : Int
  config : PolicyConfig
deriving DecidableEq

/-- `models.Capability`: one `{name, version}` capability the agent
advertises. -/
structure Capability where
  name : String
  version : String
deriving DecidableEq

/-- `Policy.MatchesDevice`: global always matches; group matches when the
row's `group_id` equals the device's; device matches when the row's
`device_id` equals the device's; any other scope matches nothing. -/
def matchesDevice (p : Policy) (deviceID : String) (groupID : Int) : Bool :=
  if p.scope = "global" then true
  else if p.scope = "group" then decide (p.groupID = some groupID)
  else if p.scope = "device" then decide (p.deviceID = some deviceID)
  else false

/-- One slot update of the resolver loop: keep the incumbent unless the
candidate's version is strictly greater (`global == nil || p.Version >
global.Version`, and likewise for the other two slots). -/
def better : Option Policy → Policy → Option Policy
  | none, p => some p
  | some q, p => if p.version > q.version then some p else some q

/-- The loop of `models.ResolveEffectivePolicy`: walk the rows, keep one
best candidate per scope, and finally pick device, then group, then
global. -/
def resolveAux (deviceID : String) (groupID : Int) :
    List Policy → Option Policy → Option Policy → Option Policy → Option Policy
  | [], gl, gr, dv => dv.orElse fun _ => gr.orElse fun _ => gl
  | p :: rest, gl, gr, dv =>
    if matchesDevice p deviceID groupID = false then
      resolveAux deviceID groupID rest gl gr dv
    else if p.scope = "global" then resolveAux deviceID groupID rest (better gl p) gr dv
    else if p.scope = "group" then resolveAux deviceID groupID rest gl (better gr p) dv
    else if p.scope = "device" then resolveAux deviceID groupID rest gl gr (better dv p)
    else resolveAux deviceID groupID rest gl gr dv

/-- `models.ResolveEffectivePolicy`. -/
def resolveEffectivePolicy (policies : List Policy) (deviceID : String) (groupID : Int) :
    Option Policy :=
  resolveAux deviceID groupID policies none none none

/-- Whether a row lands in the slot of scope `s` for the given device. -/
def slotGoes (d : String) (g : Int) (s : String) (p : Policy) : Bool :=
  matchesDevice p d g && decide (p.scope = s)

/-- The evolution of one scope slot over the row list, in isolation. -/
def slotFold (d : String) (g : Int) (s : String) (acc : Option Policy) :
    List Policy → Option Policy
  | [] => acc
  | p :: rest => slotFold d g s (if slotGoes d g s p then better acc p else acc) rest

theorem better_isSome (acc : Option Policy) (p : Policy) :
    ∃ r, better acc p = some r := by
  cases acc with
  | none => exact ⟨p, rfl⟩
  | some q =>
    simp only [better]
    by_cases h : p.version > q.version
    · exact ⟨p, by rw [if_pos h]⟩
    · exact ⟨q, by rw [if_neg h]⟩

theorem better_cases (acc : Option Policy) (p r : Policy)
    (h : better acc p = some r) : r = p ∨ acc = some r := by
  cases acc with
  | none => left; exact (Option.some.inj h).symm
  | some q =>
    simp only [better] at h
    by_cases hv : p.version > q.version
    · rw [if_pos hv] at h; left; exact (Option.some.inj h).symm
    · rw [if_neg hv] at h; right; rw [Option.some.inj h]

theorem better_version_ge (acc : Option Policy) (p r : Policy)
    (h : better acc p = some r) :
    p.version ≤ r.version ∧ ∀ q, acc = some q → q.version ≤ r.version := by
  cases acc with
  | none =>
    have : p = r := Option.some.inj h
    subst this
    exact ⟨le_rfl, fun q hq => by cases hq⟩
  | some q =>
    simp only [better] at h
    by_cases hv : p.version > q.version
    · rw [if_pos hv] at h
      have : p = r := Option.some.inj h
      subst this
      exact ⟨le_rfl, fun q' hq' => by rw [← Option.some.inj hq']; omega⟩
    · rw [if_neg hv] at h
      have : q = r := Option.some.inj h
      subst this
      exact ⟨by omega, fun q' hq' => by rw [← Option.some.inj hq']⟩

theorem slotFold_some_src (d : String) (g : Int) (s : String) :
    ∀ (L : List Policy) (acc : Option Policy) (q : Policy),
    slotFold d g s acc L = some q →
    acc = some q ∨ (q ∈ L ∧ slotGoes d g s q = true) := by
  intro L
  induction L with
  | nil => intro acc q h; left; exact h
  | cons p rest ih =>
    intro acc q h
    unfold slotFold at h
    by_cases hg : slotGoes d g s p = true
    · rw [if_pos hg] at h
      rcases ih (better acc p) q h with hacc | ⟨hmem, hq⟩
      · rcases better_cases acc p q hacc with rfl | hacc'
        · right; exact ⟨List.mem_cons_self _ _, hg⟩
        · left; exact hacc'
      · right; exact ⟨List.mem_cons_of_mem _ hmem, hq⟩
    · rw [if_neg hg] at h
      rcases ih acc q h with hacc | ⟨hmem, hq⟩
      · left; exact hacc
      · right; exact ⟨List.mem_cons_of_mem _ hmem, hq⟩

theorem slotFold_version_ge (d : String) (g : Int) (s : String) :
    ∀ (L : List Policy) (acc : Option Policy) (q : Policy),
    slotFold d g s acc L = some q →
    (∀ r, acc = some r → r.version ≤ q.version)
    ∧ ∀ p ∈ L, slotGoes d g s p = true → p.version ≤ q.version := by
  intro L
  induction L with
  | nil =>
    intro acc q h
    refine ⟨fun r hr => ?_, fun p hp => absurd hp (List.not_mem_nil p)⟩
    have h' : acc = some q := h
    rw [h'] at hr
    rw [Option.some.inj hr]
  | cons p rest ih =>
    intro acc q h
    unfold slotFold at h
    by_cases hg : slotGoes d g s p = true
    · rw [if_pos hg] at h
      obtain ⟨r', hr'⟩ := better_isSome acc p
      rw [hr'] at h
      obtain ⟨h1, h2⟩ := ih (some r') q h
      have hr'q : r'.version ≤ q.version := h1 r' rfl
      obtain ⟨hpv, haccv⟩ := better_version_ge acc p r' hr'
      refine ⟨fun r hr => le_trans (haccv r hr) hr'q, ?_⟩
      intro p' hp' hgp'
      rcases List.mem_cons.mp hp' with rfl | hmem
      · exact le_trans hpv hr'q
      · exact h2 p' hmem hgp'
    · rw [if_neg hg] at h
      obtain ⟨h1, h2⟩ := ih acc q h
      refine ⟨h1, ?_⟩
      intro p' hp' hgp'
      rcases List.mem_cons.mp hp' with rfl | hmem
      · exact absurd hgp' hg
      · exact h2 p' hmem hgp'

theorem slotFold_none (d : String) (g : Int) (s : String) :
    ∀ (L : List Policy) (acc : Option Policy),
    slotFold d g s acc L = none →
    acc = none ∧ ∀ p ∈ L, slotGoes d g s p = false := by
  intro L
  induction L with
  | nil =>
    intro acc h
    exact ⟨h, fun p hp => absurd hp (List.not_mem_nil p)⟩
  | cons p rest ih =>
    intro acc h
    unfold slotFold at h
    by_cases hg : slotGoes d g s p = true
    · rw [if_pos hg] at h
      obtain ⟨r', hr'⟩ := better_isSome acc p
      rw [hr'] at h
      obtain ⟨hnone, _⟩ := ih (some r') h
      cases hnone
    · rw [if_neg hg] at h
      obtain ⟨hnone, hall⟩ := ih acc h
      refine ⟨hnone, fun p' hp' => ?_⟩
      rcases List.mem_cons.mp hp' with rfl | hmem
      · revert hg; cases slotGoes d g s p' <;> simp
      · exact hall p' hmem

theorem slotFold_none_of (d : String) (g : Int) (s : String) :
    ∀ (L : List Policy), (∀ p ∈ L, slotGoes d g s p = false) →
    slotFold d g s none L = none := by
  intro L
  induction L with
  | nil => intro _; rfl
  | cons p rest ih =>
    intro hall
    unfold slotFold
    rw [if_neg (by rw [hall p (List.mem_cons_self p rest)]; simp)]
    exact ih fun p' hp' => hall p' (List.mem_cons_of_mem _ hp')

theorem resolveAux_eq_slots (d : String) (g : Int) :
    ∀ (L : List Policy) (gl gr dv : Option Policy),
    resolveAux d g L gl gr dv =
      ((slotFold d g "device" dv L).orElse fun _ =>
        (slotFold d g "group" gr L).orElse fun _ => slotFold d g "global" gl L) := by
  intro L
  induction L with
  | nil => intro gl gr dv; rfl
  | cons p rest ih =>
    intro gl gr dv
    by_cases hm : matchesDevice p d g = false
    · have hgoes : ∀ s, slotGoes d g s p = false := by
        intro s; unfold slotGoes; rw [hm]; rfl
      unfold resolveAux slotFold
      rw [if_pos hm, if_neg (by rw [hgoes "device"]; simp),
        if_neg (by rw [hgoes "group"]; simp), if_neg (by rw [hgoes "global"]; simp)]
      exact ih gl gr dv
    · have hm' : matchesDevice p d g = true := by
        revert hm; cases matchesDevice p d g <;> simp
      have hgoes : ∀ s, slotGoes d g s p = decide (p.scope = s) := by
        intro s; unfold slotGoes; rw [hm']; simp
      unfold resolveAux slotFold
      rw [if_neg (by rw [hm']; simp)]
      by_cases hgl : p.scope = "global"
      · rw [if_pos hgl,
          if_neg (by rw [hgoes "device"]; simp [hgl]),
          if_neg (by rw [hgoes "group"]; simp [hgl]),
          if_pos (by rw [hgoes "global"]; simp [hgl])]
        exact ih (better gl p) gr dv
      · rw [if_neg hgl]
        by_cases hgr : p.scope = "group"
        · rw [if_pos hgr,
            if_neg (by rw [hgoes "device"]; simp [hgr]),
            if_pos (by rw [hgoes "group"]; simp [hgr]),
            if_neg (by rw [hgoes "global"]; simp [hgr])]
          exact ih gl (better gr p) dv
        · rw [if_neg hgr]
          by_cases hdv : p.scope = "device"
          · rw [if_pos hdv,
              if_pos (by rw [hgoes "device"]; simp [hdv]),
              if_neg (by rw [hgoes "group"]; simp [hdv]),
              if_neg (by rw [hgoes "global"]; simp [hdv])]
            exact ih gl gr (better dv p)
          · rw [if_neg hdv,
              if_neg (by rw [hgoes "device"]; simp [hdv]),
              if_neg (by rw [hgoes "group"]; simp [hgr]),
              if_neg (by rw [hgoes "global"]; simp [hgl])]
            exact ih gl gr dv

/-- The default policy literal in `PolicyHandler.GetPolicy` when the
resolver returns nothing: version 1, `interval_seconds = 900`, empty
metrics; every other field is the Go zero value. -/
def defaultPolicy : Policy := ⟨0, none, none, "", 1, ⟨900, []⟩⟩

/-- `Policy.GenerateETag` hashes the data string
`fmt.Sprintf("%d-%s-%d", policyID, scope, version)` with md5 and quotes
the hex digest. The digest is a deterministic function of the data, and
only equality of tags is at stake here, so the hash is modelled by the
data string itself. -/
def generateETag (p : Policy) : String :=
  toString p.policyID ++ "-" ++ p.scope ++ "-" ++ toString p.version

/-- `Policy.FilterByCapabilities`: delete every metric whose name the
device does not advertise (the Go code builds a `supported` set from the
capability names and deletes the rest; on an association list that is a
filter). -/
def filterByCapabilities (p : Policy) (capabilities : List Capability) : Policy :=
  { p with config := { p.config with
      metrics := p.config.metrics.filter
        (fun m => capabilities.any fun c => decide (c.name = m.1)) } }

/-- `PolicyHandler.GetPolicy` after the rows are loaded: resolve, fall
back to the default, filter by the advertised capabilities, and compute
the entity tag of the served policy. -/
def getPolicyEffective (policies : List Policy) (caps : List Capability)
    (d : String) (g : Int) : Policy × String :=
  let eff := match resolveEffectivePolicy policies d g with
    | some p => p
    | none => defaultPolicy
  let eff2 := filterByCapabilities eff caps
  (eff2, generateETag eff2)

end PolicyModel

/-- C4: the resolver's result is a stored row that matches the device and
carries the maximum version among matching rows of its scope; a matching
device-scoped row forces a device-scoped result, otherwise a matching
group-scoped row forces a group-scoped result, otherwise a matching
global row a global result; with no matching row the served policy is the
default with `interval_seconds = 900` and no metrics; the served metric
map only contains names the device advertises; and the whole computation,
entity tag included, is deterministic in its inputs. -/
theorem c4_policy_resolution (policies : List PolicyModel.Policy)
    (caps : List PolicyModel.Capability) (d : String) (g : Int) :
    (∀ q, PolicyModel.resolveEffectivePolicy policies d g = some q →
       q ∈ policies ∧ PolicyModel.matchesDevice q d g = true
       ∧ ∀ p ∈ policies, PolicyModel.matchesDevice p d g = true →
           p.scope = q.scope → p.version ≤ q.version)
  ∧ ((∃ p ∈ policies, PolicyModel.matchesDevice p d g = true ∧ p.scope = "device") →
       ∃ q, PolicyModel.resolveEffectivePolicy policies d g = some q
         ∧ q.scope = "device")
  ∧ ((¬ ∃ p ∈ policies, PolicyModel.matchesDevice p d g = true ∧ p.scope = "device") →
     (∃ p ∈ policies, PolicyModel.matchesDevice p d g = true ∧ p.scope = "group") →
       ∃ q, PolicyModel.resolveEffectivePolicy policies d g = some q
         ∧ q.scope = "group")
  ∧ ((¬ ∃ p ∈ policies, PolicyModel.matchesDevice p d g = true
        ∧ (p.scope = "device" ∨ p.scope = "group")) →
     (∃ p ∈ policies, PolicyModel.matchesDevice p d g = true ∧ p.scope = "global") →
       ∃ q, PolicyModel.resolveEffectivePolicy policies d g = some q
         ∧ q.scope = "global")
  ∧ ((∀ p ∈ policies, PolicyModel.matchesDevice p d g = false) →
       PolicyModel.resolveEffectivePolicy policies d g = none
       ∧ (PolicyModel.getPolicyEffective policies caps d g).1.config.intervalSeconds
           = 900
       ∧ (PolicyModel.getPolicyEffective policies caps d g).1.config.metrics = [])
  ∧ (∀ m ∈ (PolicyModel.getPolicyEffective policies caps d g).1.config.metrics,
       ∃ c ∈ caps, c.name = m.1)
  ∧ (∀ policies' caps' d' g', policies = policies' → caps = caps' → d = d' → g = g' →
       PolicyModel.getPolicyEffective policies caps d g =
         PolicyModel.getPolicyEffective policies' caps' d' g') := by
  have hres : PolicyModel.resolveEffectivePolicy policies d g =
      ((PolicyModel.slotFold d g "device" none policies).orElse fun _ =>
        (PolicyModel.slotFold d g "group" none policies).orElse fun _ =>
          PolicyModel.slotFold d g "global" none policies) :=
    PolicyModel.resolveAux_eq_slots d g policies none none none
  have hgoes_iff : ∀ (s : String) (p : PolicyModel.Policy),
      PolicyModel.slotGoes d g s p = true ↔
        (PolicyModel.matchesDevice p d g = true ∧ p.scope = s) := by
    intro s p
    unfold PolicyModel.slotGoes
    constructor
    · intro h
      have h1 := (Bool.and_eq_true _ _).mp h
      exact ⟨h1.1, of_decide_eq_true h1.2⟩
    · intro ⟨h1, h2⟩
      rw [h1, h2]
      simp
  have hscope_ne : ("device" : String) ≠ "group" ∧ ("device" : String) ≠ "global"
      ∧ ("group" : String) ≠ "global" := by
    refine ⟨?_, ?_, ?_⟩ <;> decide
  -- dissect the three slots
  refine ⟨?_, ?_, ?_, ?_, ?_, ?_, ?_⟩
  · -- provenance, matching and per-scope maximality of the result
    intro q hq
    rw [hres] at hq
    have hsrc : ∃ s, PolicyModel.slotFold d g s none policies = some q := by
      cases hdv : PolicyModel.slotFold d g "device" none policies with
      | some q0 =>
        rw [hdv] at hq
        exact ⟨"device", by rw [hdv, Option.some.inj hq]⟩
      | none =>
        rw [hdv] at hq
        cases hgr : PolicyModel.slotFold d g "group" none policies with
        | some q0 =>
          rw [hgr] at hq
          exact ⟨"group", by rw [hgr]; exact hq⟩
        | none =>
          rw [hgr] at hq
          exact ⟨"global", hq⟩
    obtain ⟨s, hs⟩ := hsrc
    rcases PolicyModel.slotFold_some_src d g s policies none q hs with h0 | ⟨hmem, hg0⟩
    · cases h0
    obtain ⟨hmatch, hscope⟩ := (hgoes_iff s q).mp hg0
    refine ⟨hmem, hmatch, ?_⟩
    intro p hp hpm hpscope
    have hpg : PolicyModel.slotGoes d g s p = true :=
      (hgoes_iff s p).mpr ⟨hpm, by rw [hpscope, hscope]⟩
    exact (PolicyModel.slotFold_version_ge d g s policies none q hs).2 p hp hpg
  · -- a matching device-scoped row forces a device-scoped result
    rintro ⟨p, hp, hpm, hps⟩
    cases hdv : PolicyModel.slotFold d g "device" none policies with
    | none =>
      have := (PolicyModel.slotFold_none d g "device" policies none hdv).2 p hp
      rw [(hgoes_iff "device" p).mpr ⟨hpm, hps⟩] at this
      cases this
    | some q =>
      refine ⟨q, ?_, ?_⟩
      · rw [hres, hdv]; rfl
      · rcases PolicyModel.slotFold_some_src d g "device" policies none q hdv with
          h0 | ⟨_, hg0⟩
        · cases h0
        · exact ((hgoes_iff "device" q).mp hg0).2
  · -- no device row, a matching group row: group-scoped result
    intro hnodev
    rintro ⟨p, hp, hpm, hps⟩
    have hdv : PolicyModel.slotFold d g "device" none policies = none := by
      apply PolicyModel.slotFold_none_of
      intro p' hp'
      by_cases h : PolicyModel.slotGoes d g "device" p' = true
      · obtain ⟨h1, h2⟩ := (hgoes_iff "device" p').mp h
        exact absurd ⟨p', hp', h1, h2⟩ hnodev
      · revert h; cases PolicyModel.slotGoes d g "device" p' <;> simp
    cases hgr : PolicyModel.slotFold d g "group" none policies with
    | none =>
      have := (PolicyModel.slotFold_none d g "group" policies none hgr).2 p hp
      rw [(hgoes_iff "group" p).mpr ⟨hpm, hps⟩] at this
      cases this
    | some q =>
      refine ⟨q, ?_, ?_⟩
      · rw [hres, hdv, hgr]; rfl
      · rcases PolicyModel.slotFold_some_src d g "group" policies none q hgr with
          h0 | ⟨_, hg0⟩
        · cases h0
        · exact ((hgoes_iff "group" q).mp hg0).2
  · -- no device or group row, a matching global row: global result
    intro hnone
    rintro ⟨p, hp, hpm, hps⟩
    have hdv : PolicyModel.slotFold d g "device" none policies = none := by
      apply PolicyModel.slotFold_none_of
      intro p' hp'
      by_cases h : PolicyModel.slotGoes d g "device" p' = true
      · obtain ⟨h1, h2⟩ := (hgoes_iff "device" p').mp h
        exact absurd ⟨p', hp', h1, Or.inl h2⟩ hnone
      · revert h; cases PolicyModel.slotGoes d g "device" p' <;> simp
    have hgr : PolicyModel.slotFold d g "group" none policies = none := by
      apply PolicyModel.slotFold_none_of
      intro p' hp'
      by_cases h : PolicyModel.slotGoes d g "group" p' = true
      · obtain ⟨h1, h2⟩ := (hgoes_iff "group" p').mp h
        exact absurd ⟨p', hp', h1, Or.inr h2⟩ hnone
      · revert h; cases PolicyModel.slotGoes d g "group" p' <;> simp
    cases hgl : PolicyModel.slotFold d g "global" none policies with
    | none =>
      have := (PolicyModel.slotFold_none d g "global" policies none hgl).2 p hp
      rw [(hgoes_iff "global" p).mpr ⟨hpm, hps⟩] at this
      cases this
    | some q =>
      refine ⟨q, ?_, ?_⟩
      · rw [hres, hdv, hgr, hgl]; rfl
      · rcases PolicyModel.slotFold_some_src d g "global" policies none q hgl with
          h0 | ⟨_, hg0⟩
        · cases h0
        · exact ((hgoes_iff "global" q).mp hg0).2
  · -- no matching row at all: the default policy is served
    intro hnomatch
    have hslots : ∀ s, PolicyModel.slotFold d g s none policies = none := by
      intro s
      apply PolicyModel.slotFold_none_of
      intro p' hp'
      unfold PolicyModel.slotGoes
      rw [hnomatch p' hp']
      rfl
    have hnone : PolicyModel.resolveEffectivePolicy policies d g = none := by
      rw [hres, hslots "device", hslots "group", hslots "global"]
      rfl
    refine ⟨hnone, ?_, ?_⟩ <;>
      simp [PolicyModel.getPolicyEffective, hnone, PolicyModel.filterByCapabilities,
        PolicyModel.defaultPolicy]
  · -- capability filtering
    intro m hm
    unfold PolicyModel.getPolicyEffective PolicyModel.filterByCapabilities at hm
    simp only [List.mem_filter] at hm
    obtain ⟨-, hpred⟩ := hm
    obtain ⟨c, hc, hcn⟩ := List.any_eq_true.mp hpred
    exact ⟨c, hc, of_decide_eq_true hcn⟩
  · -- determinism, entity tag included
    intro policies' caps' d' g' h1 h2 h3 h4
    rw [h1, h2, h3, h4]

/-- A stored policy list with no row matching device `dev` in group 1
(the single row is device-scoped for another device). -/
def polNoMatchEx : List PolicyModel.Policy :=
  [⟨10, some "other", none, "device", 4, ⟨300, [("cpu.utilization", ⟨true⟩)]⟩⟩]

/-- The capability set advertised by the witness device. -/
def capsEx : List PolicyModel.Capability := [⟨"cpu.utilization", "1.0"⟩]

/-- C4 witness: with no matching stored policy the resolver returns
nothing and the served policy is the default — interval 900, empty
metrics. -/
theorem c4_witness :
    PolicyModel.resolveEffectivePolicy polNoMatchEx "dev" 1 = none
  ∧ (PolicyModel.getPolicyEffective polNoMatchEx capsEx "dev" 1).1.config.intervalSeconds
      = 900
  ∧ (PolicyModel.getPolicyEffective polNoMatchEx capsEx "dev" 1).1.config.metrics = [] :=
  (c4_policy_resolution polNoMatchEx capsEx "dev" 1).2.2.2.2.1 (by decide)
